import Mathlib

/-!
Verification development for the svsm repository.

Two components are embedded shallowly:
- src/src/pagetable.rs : a 4-level page-table manager (entry format, table
  walk, huge-page splitting, confidentiality-bit toggling).  Machine words
  (u64/usize) are modelled as Nat; every bitwise operation of the source is
  carried over literally (&&&, |||, masks), so no overflow correction is
  needed (all source arithmetic stays far below 2^64, see the lemmas).
- src/kernel/src/sev/hv_doorbell.rs : the #HV doorbell page and its
  event-processing routines.  The atomics are modelled as plain state
  updates (the claims under verification assume no concurrent hypervisor
  writes); the weak compare-and-swap of no_eoi_required keeps its spurious
  failures, driven by an explicit schedule.

Functions that can panic in Rust (assert!, explicit panic!) return an
Outcome that distinguishes ok / recoverable error / panic.
-/

namespace SVSM

/-! ## Bit-level toolkit -/

/-- Every 64-bit constant of pagetable.rs, as a Nat. -/
def U64MAX : Nat := 0xFFFFFFFFFFFFFFFF

/-- PTEntryFlags::PRESENT (1 << 0). -/
def PRESENT : Nat := 0x1

/-- PTEntryFlags::HUGE (1 << 7). -/
def HUGE : Nat := 0x80

/-- Union of all bits declared in bitflags PTEntryFlags:
PRESENT|WRITABLE|USER|ACCESSED|DIRTY|HUGE|GLOBAL|NX.
PTEntryFlags::from_bits_truncate keeps exactly these bits. -/
def FLAGMASK : Nat := 0x80000000000001E7

/-- The physical-address mask used by PTEntry::set and PTEntry::address:
0x000f_ffff_ffff_f000 (bits 12..51). -/
def ADDRMASK : Nat := 0x000FFFFFFFFFF000

/-- encrypt_mask(): 1 << 51, the confidentiality (c) bit. -/
def encrypt_mask : Nat := 0x0008000000000000

/-- Mask form of the Rust `!encrypt_mask()` on a 64-bit word. -/
def STRIPMASK : Nat := U64MAX ^^^ encrypt_mask

/-- ADDRMASK with the c-bit stripped (bits 12..50); equals 2^12*(2^39-1). -/
def ANC : Nat := 0x0007FFFFFFFFF000

/-- The 2 MiB-area mask of do_split_4k: 0x000f_ffff_fff0_0000
(bits 20..51); equals 2^20*(2^32-1). -/
def MASK2M : Nat := 0x000FFFFFFFF00000

/-- Mask form of the Rust `!0x000f_ffff_ffff_f000` (assert in PTEntry::set). -/
def NOTADDR : Nat := U64MAX ^^^ ADDRMASK

/-- Mask form of flags.remove(PTEntryFlags::HUGE): bits & !(1<<7). -/
def REMHUGE : Nat := U64MAX ^^^ HUGE

/-- Distributes a bitwise and over a shift: used to factor masks of the
shape 2^a*(2^b-1). -/
theorem shiftLeft_land_shiftLeft (y z n : Nat) :
    (y <<< n) &&& (z <<< n) = (y &&& z) <<< n := by
  apply Nat.eq_of_testBit_eq
  intro j
  simp only [Nat.testBit_and, Nat.testBit_shiftLeft]
  cases h : decide (n ≤ j) <;> simp

/-- A shifted value has no bits below the shift amount. -/
theorem shiftLeft_land_low (y n : Nat) : (y <<< n) &&& (2 ^ n - 1) = 0 := by
  apply Nat.eq_of_testBit_eq
  intro j
  simp only [Nat.testBit_and, Nat.testBit_shiftLeft, Nat.testBit_two_pow_sub_one,
    Nat.zero_testBit]
  rcases Nat.lt_or_ge j n with h | h
  · simp [Nat.not_le.mpr h]
  · simp [Nat.not_lt.mpr h]

/-- Characterizes self-masking by a contiguous bit mask 2^a*(2^b-1):
a value is unchanged by the mask exactly when it is 2^a-aligned and
below 2^(a+b). -/
theorem land_mask_self_iff (a b x : Nat) :
    x &&& (2 ^ a * (2 ^ b - 1)) = x ↔ x % 2 ^ a = 0 ∧ x < 2 ^ (a + b) := by
  constructor
  · intro h
    constructor
    · have h1 : x &&& (2 ^ a - 1) = 0 := by
        conv_lhs => rw [← h]
        rw [Nat.and_assoc]
        have hm : (2 ^ a * (2 ^ b - 1)) &&& (2 ^ a - 1) = 0 := by
          rw [Nat.mul_comm, ← Nat.shiftLeft_eq]
          exact shiftLeft_land_low _ _
        rw [hm, Nat.and_zero]
      rw [← Nat.and_pow_two_sub_one_eq_mod]
      exact h1
    · calc x = x &&& (2 ^ a * (2 ^ b - 1)) := h.symm
        _ ≤ 2 ^ a * (2 ^ b - 1) := Nat.and_le_right
        _ < 2 ^ (a + b) := by
            rw [Nat.pow_add]
            have hb : 0 < 2 ^ b := Nat.pos_pow_of_pos b (by omega)
            have ha : 0 < 2 ^ a := Nat.pos_pow_of_pos a (by omega)
            have he : (2 ^ b - 1) + 1 = 2 ^ b := by omega
            calc 2 ^ a * (2 ^ b - 1) < 2 ^ a * (2 ^ b - 1) + 2 ^ a := by omega
              _ = 2 ^ a * ((2 ^ b - 1) + 1) := by rw [Nat.mul_succ]
              _ = 2 ^ a * 2 ^ b := by rw [he]
  · rintro ⟨hmod, hlt⟩
    obtain ⟨k, hk⟩ : 2 ^ a ∣ x := Nat.dvd_of_mod_eq_zero hmod
    subst hk
    have hklt : k < 2 ^ b := by
      by_contra hge
      push_neg at hge
      have : 2 ^ a * 2 ^ b ≤ 2 ^ a * k :=
        Nat.mul_le_mul_left _ hge
      rw [← Nat.pow_add] at this
      omega
    calc 2 ^ a * k &&& 2 ^ a * (2 ^ b - 1)
        = (k <<< a) &&& ((2 ^ b - 1) <<< a) := by
          rw [Nat.shiftLeft_eq, Nat.shiftLeft_eq, Nat.mul_comm (2 ^ a) k,
            Nat.mul_comm (2 ^ a) (2 ^ b - 1)]
      _ = (k &&& (2 ^ b - 1)) <<< a := shiftLeft_land_shiftLeft _ _ _
      _ = (k % 2 ^ b) <<< a := by rw [Nat.and_pow_two_sub_one_eq_mod]
      _ = k <<< a := by rw [Nat.mod_eq_of_lt hklt]
      _ = 2 ^ a * k := by rw [Nat.shiftLeft_eq, Nat.mul_comm]

/-- Instance of land_mask_self_iff for ANC = bits 12..50. -/
theorem land_ANC_self_iff (x : Nat) :
    x &&& ANC = x ↔ x % 4096 = 0 ∧ x < 2 ^ 51 := by
  have h : ANC = 2 ^ 12 * (2 ^ 39 - 1) := by decide
  rw [h]
  exact land_mask_self_iff 12 39 x

/-- Instance of land_mask_self_iff for MASK2M = bits 20..51. -/
theorem land_MASK2M_self_iff (x : Nat) :
    x &&& MASK2M = x ↔ x % 1048576 = 0 ∧ x < 2 ^ 52 := by
  have h : MASK2M = 2 ^ 20 * (2 ^ 32 - 1) := by decide
  rw [h]
  exact land_mask_self_iff 20 32 x

/-- Rewrites a double mask to a single combined constant. -/
theorem land_land (e m n k : Nat) (h : m &&& n = k) : e &&& m &&& n = e &&& k := by
  rw [Nat.and_assoc, h]

/-! ## Page-table entry operations (src/src/pagetable.rs)

A PTEntry is its raw u64 value, modelled as a Nat.  The functions below are
literal translations of the PTEntry / free functions of pagetable.rs. -/

/-- strip_c_bit: paddr & !encrypt_mask(). -/
def strip_c_bit (paddr : Nat) : Nat := paddr &&& STRIPMASK

/-- set_c_bit (the free function on addresses): paddr | encrypt_mask(). -/
def set_c_bit_addr (paddr : Nat) : Nat := paddr ||| encrypt_mask

/-- PTEntry::flags: PTEntryFlags::from_bits_truncate(self.0), i.e. the raw
value restricted to the declared flag bits. -/
def flagsOf (e : Nat) : Nat := e &&& FLAGMASK

/-- PTEntry::address: strip_c_bit(self.0 & 0x000f_ffff_ffff_f000). -/
def address (e : Nat) : Nat := strip_c_bit (e &&& ADDRMASK)

/-- PTEntry::set without its assert: self.0 = addr | flags.bits().  The
assert condition (addr & !0x000f_ffff_ffff_f000 == 0) is modelled by
set_assert_ok and checked at the one call site whose argument is not
provably in range (the allocator pointer in do_split_4k); at every other
call site the argument is an address() result or its c-bit variant, for
which set_assert_ok always holds (see set_assert_ok_of_ANC). -/
def pte_set (addr flags : Nat) : Nat := addr ||| flags

/-- Condition of the assert! in PTEntry::set. -/
def set_assert_ok (addr : Nat) : Prop := addr &&& NOTADDR = 0

instance (addr : Nat) : Decidable (set_assert_ok addr) := by
  unfold set_assert_ok
  infer_instance

/-! ## Page-table state

A PTPage is 512 entries; we model a page as a function from entry index to
raw entry value (indices computed by the walk are always below 512 because
they are masked with 0x1ff).  The PageTable owns its root page inline
(field root: PTPage); every other page lives in physical memory and is
reached through the physical address stored in an entry, which the source
dereferences as a raw pointer.  We therefore model the machine state as the
root page plus physical memory, a function from page address to page. -/

def PTPage := Nat → Nat

/-- Identifies one page: the inline root page or a heap page at a physical
address. -/
inductive PageLoc where
  | root
  | heap (pa : Nat)
deriving DecidableEq

/-- Identifies one entry: a page and an index into it.  Rust mapping
references (&mut PTEntry) are modelled as such locations. -/
structure Loc where
  pl : PageLoc
  idx : Nat
deriving DecidableEq

/-- The page-table machine state. -/
structure PTState where
  rootPage : Nat → Nat
  mem : Nat → Nat → Nat

/-- Reads a whole page. -/
def pageAt (st : PTState) : PageLoc → Nat → Nat
  | .root => st.rootPage
  | .heap pa => st.mem pa

/-- Reads the entry a location refers to. -/
def readE (st : PTState) (l : Loc) : Nat := pageAt st l.pl l.idx

/-- Pointwise function update (used for single-entry writes). -/
def updFn (f : Nat → Nat) (i v : Nat) : Nat → Nat :=
  fun x => if x = i then v else f x

/-- Writes the entry a location refers to. -/
def writeE (st : PTState) (l : Loc) (v : Nat) : PTState :=
  match l.pl with
  | .root => { st with rootPage := updFn st.rootPage l.idx v }
  | .heap pa =>
      { st with mem := fun q => if q = pa then updFn (st.mem pa) l.idx v else st.mem q }

/-- Overwrites a whole heap page. -/
def writePage (st : PTState) (pa : Nat) (p : Nat → Nat) : PTState :=
  { st with mem := fun q => if q = pa then p else st.mem q }

/-! ## Table walk -/

/-- Mapping: the result of a walk, a reference to one entry tagged with the
level at which the walk stopped (Level0..Level3 in the source). -/
structure Mapping where
  level : Nat
  loc : Loc
deriving DecidableEq

/-- PageTable::index::<L>: vaddr >> (12 + L * 9) & 0x1ff. -/
def pt_index (L vaddr : Nat) : Nat := (vaddr >>> (12 + L * 9)) &&& 0x1FF

/-- PageTable::entry_to_pagetable: None when the entry is not PRESENT or is
HUGE; otherwise the next-level page, identified by entry.address() (the
source turns that address into a &mut PTPage). -/
def entry_to_pagetable (e : Nat) : Option Nat :=
  if e &&& PRESENT = 0 ∨ e &&& HUGE ≠ 0 then none
  else some (address e)

/-- PageTable::walk_addr_lvl0. -/
def walk_addr_lvl0 (pl : PageLoc) (vaddr : Nat) : Mapping :=
  ⟨0, ⟨pl, pt_index 0 vaddr⟩⟩

/-- PageTable::walk_addr_lvl1. -/
def walk_addr_lvl1 (st : PTState) (pl : PageLoc) (vaddr : Nat) : Mapping :=
  match entry_to_pagetable (pageAt st pl (pt_index 1 vaddr)) with
  | some a => walk_addr_lvl0 (.heap a) vaddr
  | none => ⟨1, ⟨pl, pt_index 1 vaddr⟩⟩

/-- PageTable::walk_addr_lvl2. -/
def walk_addr_lvl2 (st : PTState) (pl : PageLoc) (vaddr : Nat) : Mapping :=
  match entry_to_pagetable (pageAt st pl (pt_index 2 vaddr)) with
  | some a => walk_addr_lvl1 st (.heap a) vaddr
  | none => ⟨2, ⟨pl, pt_index 2 vaddr⟩⟩

/-- PageTable::walk_addr_lvl3. -/
def walk_addr_lvl3 (st : PTState) (pl : PageLoc) (vaddr : Nat) : Mapping :=
  match entry_to_pagetable (pageAt st pl (pt_index 3 vaddr)) with
  | some a => walk_addr_lvl2 st (.heap a) vaddr
  | none => ⟨3, ⟨pl, pt_index 3 vaddr⟩⟩

/-- PageTable::walk_addr: starts at the root page. -/
def walk_addr (st : PTState) (vaddr : Nat) : Mapping :=
  walk_addr_lvl3 st .root vaddr

/-! ## Splitting and confidentiality toggling

Fallible mutating operations return an Outcome: ok (Rust Ok(())), err
(Rust Err(())), or panic (a failed assert!).  Each constructor carries the
machine state at that point so that claims about error-path mutation can be
stated.  Page allocation (ALLOCATOR.alloc) is an external collaborator and
is modelled by an oracle parameter: none models a null return, some pa a
frame at physical address pa.  flush_tlb only rewrites CR3 and does not
touch any page-table entry, so it is the identity on PTState and elided. -/

inductive Outcome (σ : Type) where
  | ok (s : σ)
  | err (s : σ)
  | panic (s : σ)
deriving DecidableEq

/-- True exactly on the err constructor. -/
def isErrO : Outcome PTState → Bool
  | .err _ => true
  | _ => false

/-- True exactly on the ok constructor. -/
def isOkO : Outcome PTState → Bool
  | .ok _ => true
  | _ => false

/-- True exactly on the panic constructor. -/
def isPanicO : Outcome PTState → Bool
  | .panic _ => true
  | _ => false

/-- Extracts the carried state. -/
def stateO : Outcome PTState → PTState
  | .ok s => s
  | .err s => s
  | .panic s => s

/-- PageTable::do_split_4k, step for step:
let page = allocate_page_table() (the alloc oracle);
let flags = entry.flags();
assert!(flags.contains(HUGE));
if page.is_null() return Err;
let addr_2m = entry.address() & 0x000f_ffff_fff0_0000;
flags.remove(HUGE);
for i in 0..512 { entries[i].clear(); entries[i].set(set_c_bit(addr_2m + i*4096), flags) }
entry.set(set_c_bit(page as PhysAddr), flags);
flush_tlb(); Ok(()).
The per-iteration set assert always holds (lemma leaf_set_assert_ok); the
final set assert depends on the oracle pointer and is modelled.  The 512
leaf writes are split_leaf_page (entries beyond index 511 do not exist in
the source array and keep their prior memory content here). -/
def split_leaf_page (st : PTState) (l : Loc) (pa : Nat) : Nat → Nat :=
  fun i =>
    if i < 512 then
      pte_set (set_c_bit_addr ((address (readE st l) &&& MASK2M) + i * 4096))
        (flagsOf (readE st l) &&& REMHUGE)
    else st.mem pa i

def do_split_4k (alloc : Option Nat) (st : PTState) (l : Loc) : Outcome PTState :=
  if flagsOf (readE st l) &&& HUGE = 0 then .panic st
  else
    match alloc with
    | none => .err st
    | some pa =>
        if set_assert_ok (set_c_bit_addr pa) then
          .ok (writeE (writePage st pa (split_leaf_page st l pa)) l
            (pte_set (set_c_bit_addr pa) (flagsOf (readE st l) &&& REMHUGE)))
        else .panic (writePage st pa (split_leaf_page st l pa))

/-- PageTable::split_4k: Level0 is a no-op success, Level1 splits, Level2
and Level3 are errors. -/
def split_4k (alloc : Option Nat) (st : PTState) (m : Mapping) : Outcome PTState :=
  match m.level with
  | 0 => .ok st
  | 1 => do_split_4k alloc st m.loc
  | _ => .err st

/-- PageTable::clear_c_bit: entry.set(entry.address(), entry.flags());
address() already strips the c-bit.  The set assert holds because the
argument is an address() result. -/
def clear_c_bit (e : Nat) : Nat := pte_set (address e) (flagsOf e)

/-- PageTable::set_c_bit: entry.set(set_c_bit(entry.address()), entry.flags()). -/
def set_c_bit_entry (e : Nat) : Nat := pte_set (set_c_bit_addr (address e)) (flagsOf e)

/-- PageTable::set_shared_4k: walk, split to 4k (propagating failure),
re-walk, clear the c-bit of the level-0 entry, else Err. -/
def set_shared_4k (alloc : Option Nat) (st : PTState) (vaddr : Nat) : Outcome PTState :=
  match split_4k alloc st (walk_addr st vaddr) with
  | .panic s => .panic s
  | .err s => .err s
  | .ok s =>
      let m := walk_addr s vaddr
      if m.level = 0 then .ok (writeE s m.loc (clear_c_bit (readE s m.loc)))
      else .err s

/-- PageTable::set_encrypted_4k: like set_shared_4k but sets the c-bit. -/
def set_encrypted_4k (alloc : Option Nat) (st : PTState) (vaddr : Nat) : Outcome PTState :=
  match split_4k alloc st (walk_addr st vaddr) with
  | .panic s => .panic s
  | .err s => .err s
  | .ok s =>
      let m := walk_addr s vaddr
      if m.level = 0 then .ok (writeE s m.loc (set_c_bit_entry (readE s m.loc)))
      else .err s

/-- The confidentiality bit of a raw entry (bit 51). -/
def cbit (e : Nat) : Bool := e.testBit 51

/-! ## HV doorbell (src/kernel/src/sev/hv_doorbell.rs)

The doorbell page layout, with every atomic byte/word as a Nat field.
HVDoorbellFlags (a u8 bitfield): bit 0 nmi_pending, bit 1 mc_pending,
bits 2..6 reserved, bit 7 no_further_signal.  The claims under
verification assume no concurrent hypervisor writes, so the atomics
become plain reads/writes of this state. -/

structure HVExtIntInfo where
  status : Nat
  irr : Nat → Nat
  isr : Nat → Nat

structure HVDoorbell where
  vector : Nat
  flags : Nat
  no_eoi_required : Nat
  per_vmpl_events : Nat
  reserved_63_4 : Nat → Nat
  per_vmpl : Nat → HVExtIntInfo

/-- The mask built in process_pending_events:
HVDoorbellFlags::new().with_no_further_signal(true).with_nmi_pending(true),
i.e. bit 7 | bit 0 = 0x81. -/
def NO_FURTHER_SIGNAL_MASK : Nat := 0x81

/-- Byte complement of NO_FURTHER_SIGNAL_MASK (the fetch_and operand !mask
on a u8). -/
def KEEPFLAGS : Nat := 0x7E

/-- Result of one invocation of process_pending_events: the vectors passed
to common_isr_handler in order, the final doorbell state, and whether the
routine panicked (the #MC case). -/
structure PPEResult where
  dispatched : List Nat
  state : HVDoorbell
  panicked : Bool

/-- The vector-drain loop of process_pending_events:
loop { let vector = self.vector.swap(0); if vector == 0 break;
common_isr_handler(vector) }.  With no concurrent writer the swap leaves
zero behind, so the loop runs once more and exits; the recursion is on the
vector value, which the swap sends to zero. -/
def drain (d : HVDoorbell) : List Nat × HVDoorbell :=
  if d.vector = 0 then ([], { d with vector := 0 })
  else
    let p := drain { d with vector := 0 }
    (d.vector :: p.1, p.2)
termination_by d.vector
decreasing_by
  exact Nat.pos_of_ne_zero (by assumption)

/-- HVDoorbell::process_pending_events:
1. fetch_and clears no_further_signal and nmi_pending in the flags byte,
   capturing the prior value;
2. panics if the prior value had mc_pending (bit 1);
3. drains the pending-vector byte, dispatching each nonzero value.
Per-VMPL event state is deliberately not consumed. -/
def process_pending_events (d : HVDoorbell) : PPEResult :=
  let prior := d.flags
  let d1 := { d with flags := d.flags &&& KEEPFLAGS }
  if prior &&& 0x2 ≠ 0 then ⟨[], d1, true⟩
  else
    let p := drain d1
    ⟨p.1, p.2, false⟩

/-- The compare-and-swap retry loop of HVDoorbell::no_eoi_required, on the
byte value alone.  sched k tells whether the k-th compare_exchange_weak
attempt succeeds (false models a spurious failure; with no concurrent
writer the freshly observed value equals the stored one, so the loop
retries on the same byte).  fuel bounds the number of attempts modelled;
none means every modelled attempt failed spuriously (the source would keep
retrying). -/
def no_eoi_go (sched : Nat → Bool) : Nat → Nat → Nat → Option (Bool × Nat)
  | 0, _, _ => none
  | fuel + 1, k, b =>
      if b &&& 1 = 0 then some (false, b)
      else if sched k then some (true, b &&& 0xFE)
      else no_eoi_go sched fuel (k + 1) b

/-- HVDoorbell::no_eoi_required: test-and-clear bit 0 of the
no_eoi_required byte; true exactly when this call observed the bit set and
cleared it. -/
def no_eoi_required (sched : Nat → Bool) (fuel : Nat) (d : HVDoorbell) :
    Option (Bool × HVDoorbell) :=
  (no_eoi_go sched fuel 0 d.no_eoi_required).map
    (fun p => (p.1, { d with no_eoi_required := p.2 }))

/-! ## Derived facts about entry operations -/

/-- address() is one combined mask: bits 12..50 of the raw entry. -/
theorem address_eq_land_ANC (e : Nat) : address e = e &&& ANC := by
  unfold address strip_c_bit
  rw [Nat.and_assoc, (by decide : ADDRMASK &&& STRIPMASK = ANC)]

/-- An address() result is fixed by the ANC mask. -/
theorem land_ANC_of_address (e : Nat) : address e &&& ANC = address e := by
  rw [address_eq_land_ANC, Nat.and_assoc, (by decide : ANC &&& ANC = ANC)]

/-- A flags() result is fixed by the flag mask. -/
theorem flagsOf_land_FLAGMASK (e : Nat) : flagsOf e &&& FLAGMASK = flagsOf e := by
  unfold flagsOf
  rw [Nat.and_assoc, (by decide : FLAGMASK &&& FLAGMASK = FLAGMASK)]

/-- Flag bits vanish under the address mask. -/
theorem land_ANC_of_flags (f : Nat) (hf : f &&& FLAGMASK = f) : f &&& ANC = 0 := by
  rw [← hf, Nat.and_assoc, (by decide : FLAGMASK &&& ANC = 0), Nat.and_zero]

/-- Address bits vanish under the flag mask. -/
theorem land_FLAGMASK_of_ANC (x : Nat) (hx : x &&& ANC = x) : x &&& FLAGMASK = 0 := by
  rw [← hx, Nat.and_assoc, (by decide : ANC &&& FLAGMASK = 0), Nat.and_zero]

/-- address() of an entry assembled without the c-bit. -/
theorem address_pte_set_plain (x f : Nat) (hx : x &&& ANC = x) (hf : f &&& FLAGMASK = f) :
    address (pte_set x f) = x := by
  unfold pte_set
  rw [address_eq_land_ANC, Nat.and_distrib_right, hx, land_ANC_of_flags f hf, Nat.or_zero]

/-- flags() of an entry assembled without the c-bit. -/
theorem flagsOf_pte_set_plain (x f : Nat) (hx : x &&& ANC = x) (hf : f &&& FLAGMASK = f) :
    flagsOf (pte_set x f) = f := by
  unfold pte_set flagsOf
  rw [Nat.and_distrib_right, land_FLAGMASK_of_ANC x hx, hf, Nat.zero_or]

/-- address() of an entry assembled with the c-bit set. -/
theorem address_pte_set_c (x f : Nat) (hx : x &&& ANC = x) (hf : f &&& FLAGMASK = f) :
    address (pte_set (set_c_bit_addr x) f) = x := by
  unfold pte_set set_c_bit_addr
  rw [address_eq_land_ANC, Nat.and_distrib_right, Nat.and_distrib_right, hx,
    (by decide : encrypt_mask &&& ANC = 0), land_ANC_of_flags f hf, Nat.or_zero, Nat.or_zero]

/-- flags() of an entry assembled with the c-bit set. -/
theorem flagsOf_pte_set_c (x f : Nat) (hx : x &&& ANC = x) (hf : f &&& FLAGMASK = f) :
    flagsOf (pte_set (set_c_bit_addr x) f) = f := by
  unfold pte_set set_c_bit_addr flagsOf
  rw [Nat.and_distrib_right, Nat.and_distrib_right, land_FLAGMASK_of_ANC x hx,
    (by decide : encrypt_mask &&& FLAGMASK = 0), hf, Nat.zero_or, Nat.zero_or]

/-- The c-bit of an entry assembled with set_c_bit is always set. -/
theorem cbit_pte_set_c (x f : Nat) : cbit (pte_set (set_c_bit_addr x) f) = true := by
  unfold cbit pte_set set_c_bit_addr
  simp [Nat.testBit_or, (by decide : encrypt_mask.testBit 51 = true)]

/-- The c-bit of an entry assembled from an address() result and a flags()
result without set_c_bit is always clear. -/
theorem cbit_pte_set_plain (x f : Nat) (hx : x &&& ANC = x) (hf : f &&& FLAGMASK = f) :
    cbit (pte_set x f) = false := by
  unfold cbit pte_set
  rw [← hx, ← hf]
  simp [Nat.testBit_or, Nat.testBit_and, (by decide : ANC.testBit 51 = false),
    (by decide : FLAGMASK.testBit 51 = false)]

/-- clear_c_bit keeps address(). -/
theorem address_clear_c_bit (e : Nat) : address (clear_c_bit e) = address e :=
  address_pte_set_plain (address e) (flagsOf e) (land_ANC_of_address e) (flagsOf_land_FLAGMASK e)

/-- clear_c_bit keeps flags(). -/
theorem flagsOf_clear_c_bit (e : Nat) : flagsOf (clear_c_bit e) = flagsOf e :=
  flagsOf_pte_set_plain (address e) (flagsOf e) (land_ANC_of_address e) (flagsOf_land_FLAGMASK e)

/-- clear_c_bit leaves the c-bit clear. -/
theorem cbit_clear_c_bit (e : Nat) : cbit (clear_c_bit e) = false :=
  cbit_pte_set_plain (address e) (flagsOf e) (land_ANC_of_address e) (flagsOf_land_FLAGMASK e)

/-- set_c_bit (on an entry) keeps address(). -/
theorem address_set_c_bit_entry (e : Nat) : address (set_c_bit_entry e) = address e :=
  address_pte_set_c (address e) (flagsOf e) (land_ANC_of_address e) (flagsOf_land_FLAGMASK e)

/-- set_c_bit (on an entry) keeps flags(). -/
theorem flagsOf_set_c_bit_entry (e : Nat) : flagsOf (set_c_bit_entry e) = flagsOf e :=
  flagsOf_pte_set_c (address e) (flagsOf e) (land_ANC_of_address e) (flagsOf_land_FLAGMASK e)

/-- set_c_bit (on an entry) sets the c-bit. -/
theorem cbit_set_c_bit_entry (e : Nat) : cbit (set_c_bit_entry e) = true :=
  cbit_pte_set_c (address e) (flagsOf e)

/-- The assert in PTEntry::set holds for any ANC-masked address with the
c-bit OR-ed in. -/
theorem set_assert_ok_of_ANC (x : Nat) (hx : x &&& ANC = x) :
    set_assert_ok (set_c_bit_addr x) := by
  unfold set_assert_ok set_c_bit_addr
  rw [Nat.and_distrib_right, (by decide : encrypt_mask &&& NOTADDR = 0)]
  rw [← hx, Nat.and_assoc, (by decide : ANC &&& NOTADDR = 0), Nat.and_zero, Nat.or_zero]

/-- Instance of land_mask_self_iff for ADDRMASK = bits 12..51. -/
theorem land_ADDRMASK_self_iff (x : Nat) :
    x &&& ADDRMASK = x ↔ x % 4096 = 0 ∧ x < 2 ^ 52 := by
  have h : ADDRMASK = 2 ^ 12 * (2 ^ 40 - 1) := by decide
  rw [h]
  exact land_mask_self_iff 12 40 x

/-- The assert in PTEntry::set holds for any ADDRMASK-fixed value. -/
theorem set_assert_ok_of_ADDR (y : Nat) (hy : y &&& ADDRMASK = y) :
    set_assert_ok (set_c_bit_addr y) := by
  unfold set_assert_ok set_c_bit_addr
  rw [Nat.and_distrib_right, (by decide : encrypt_mask &&& NOTADDR = 0)]
  rw [← hy, Nat.and_assoc, (by decide : ADDRMASK &&& NOTADDR = 0), Nat.and_zero, Nat.or_zero]

/-- Justifies eliding the per-iteration assert of the leaf loop of
do_split_4k: each 4 KiB sub-address, with the c-bit OR-ed in, satisfies
the assert of PTEntry::set for every entry value and every i < 512. -/
theorem leaf_set_assert_ok (e i : Nat) (hi : i < 512) :
    set_assert_ok (set_c_bit_addr ((address e &&& MASK2M) + i * 4096)) := by
  apply set_assert_ok_of_ADDR
  have hK : address e &&& MASK2M = e &&& (2 ^ 20 * (2 ^ 31 - 1)) := by
    rw [address_eq_land_ANC, Nat.and_assoc,
      (by decide : ANC &&& MASK2M = 2 ^ 20 * (2 ^ 31 - 1))]
  have hfix : (e &&& 2 ^ 20 * (2 ^ 31 - 1)) &&& 2 ^ 20 * (2 ^ 31 - 1)
      = e &&& 2 ^ 20 * (2 ^ 31 - 1) := by
    rw [Nat.and_assoc, (by decide :
      (2 ^ 20 * (2 ^ 31 - 1)) &&& (2 ^ 20 * (2 ^ 31 - 1)) = 2 ^ 20 * (2 ^ 31 - 1))]
  have hc := (land_mask_self_iff 20 31 (e &&& 2 ^ 20 * (2 ^ 31 - 1))).mp hfix
  rw [hK]
  rw [land_ADDRMASK_self_iff]
  constructor
  · omega
  · omega

/-! ## Derived facts about the doorbell drain loop -/

/-- Closed form of drain under sequential execution: at most one vector is
pending, and the pending-vector byte ends at zero. -/
theorem drain_eq (d : HVDoorbell) :
    drain d = if d.vector = 0 then ([], { d with vector := 0 })
              else ([d.vector], { d with vector := 0 }) := by
  by_cases h : d.vector = 0
  · unfold drain
    simp [h]
  · unfold drain
    simp only [h, if_false]
    unfold drain
    simp

/-- Invariant of the CAS retry loop: a true result is possible only when
bit 0 was observed set, and then the byte is left with bit 0 cleared; a
false result is immediate and leaves the byte unchanged. -/
theorem no_eoi_go_inv (sched : Nat → Bool) (fuel : Nat) :
    ∀ k b r b2, no_eoi_go sched fuel k b = some (r, b2) →
      (r = true → b &&& 1 ≠ 0 ∧ b2 = b &&& 0xFE) ∧
      (r = false → b &&& 1 = 0 ∧ b2 = b) := by
  induction fuel with
  | zero =>
      intro k b r b2 h
      exact absurd h (by simp [no_eoi_go])
  | succ n ih =>
      intro k b r b2 h
      unfold no_eoi_go at h
      by_cases hb : b &&& 1 = 0
      · rw [if_pos hb] at h
        simp only [Option.some.injEq, Prod.mk.injEq] at h
        obtain ⟨h1, h2⟩ := h
        constructor
        · intro hr
          rw [hr] at h1
          exact absurd h1.symm (by simp)
        · intro _
          exact ⟨hb, h2.symm⟩
      · rw [if_neg hb] at h
        by_cases hs : sched k
        · rw [if_pos hs] at h
          simp only [Option.some.injEq, Prod.mk.injEq] at h
          obtain ⟨h1, h2⟩ := h
          constructor
          · intro _
            exact ⟨hb, h2.symm⟩
          · intro hr
            rw [hr] at h1
            exact absurd h1.symm (by simp)
        · rw [if_neg hs] at h
          exact ih (k + 1) b r b2 h

/-- The CAS loop succeeds and clears bit 0 as soon as some attempt within
the fuel bound is not spuriously failed. -/
theorem no_eoi_go_set (sched : Nat → Bool) (fuel : Nat) :
    ∀ k b, b &&& 1 ≠ 0 → (∃ j, k ≤ j ∧ j < k + fuel ∧ sched j = true) →
      no_eoi_go sched fuel k b = some (true, b &&& 0xFE) := by
  induction fuel with
  | zero =>
      intro k b _ hs
      obtain ⟨j, hj1, hj2, _⟩ := hs
      omega
  | succ n ih =>
      intro k b hb hs
      unfold no_eoi_go
      rw [if_neg hb]
      by_cases hk : sched k
      · rw [if_pos hk]
      · rw [if_neg hk]
        apply ih (k + 1) b hb
        obtain ⟨j, hj1, hj2, hj3⟩ := hs
        refine ⟨j, ?_, by omega, hj3⟩
        have hne : j ≠ k := by
          intro he
          rw [he] at hj3
          exact hk hj3
        omega

/-- Claim C5: with the machine-check bit clear and a nonzero pending
vector V, one invocation of process_pending_events dispatches exactly
[V] and zeroes the pending-vector byte, and a second invocation with no
new vector dispatches nothing. -/
theorem pending_vector_dispatched_once (d : HVDoorbell)
    (hmc : d.flags &&& 0x2 = 0) (hv : d.vector ≠ 0) :
    (process_pending_events d).panicked = false
    ∧ (process_pending_events d).dispatched = [d.vector]
    ∧ (process_pending_events d).state.vector = 0
    ∧ (process_pending_events (process_pending_events d).state).panicked = false
    ∧ (process_pending_events (process_pending_events d).state).dispatched = [] := by
  have hmc2 : (d.flags &&& KEEPFLAGS) &&& 0x2 = 0 := by
    rw [Nat.and_assoc, (by decide : KEEPFLAGS &&& 0x2 = 0x2), hmc]
  have hd : drain { d with flags := d.flags &&& KEEPFLAGS }
      = ([d.vector], { d with flags := d.flags &&& KEEPFLAGS, vector := 0 }) := by
    rw [drain_eq]
    rw [if_neg (show ¬ ({ d with flags := d.flags &&& KEEPFLAGS } : HVDoorbell).vector = 0
      from hv)]
  have h1 : process_pending_events d
      = ⟨[d.vector], { d with flags := d.flags &&& KEEPFLAGS, vector := 0 }, false⟩ := by
    unfold process_pending_events
    rw [if_neg (fun hn => hn hmc), hd]
  have h2 : process_pending_events { d with flags := d.flags &&& KEEPFLAGS, vector := 0 }
      = ⟨[], { d with flags := d.flags &&& KEEPFLAGS &&& KEEPFLAGS, vector := 0 }, false⟩ := by
    unfold process_pending_events
    rw [if_neg (fun hn => hn hmc2)]
    rw [drain_eq]
    rw [if_pos (show ({ d with flags := d.flags &&& KEEPFLAGS, vector := 0 }
          : HVDoorbell).vector = 0 from rfl)]
  rw [h1]
  refine ⟨rfl, rfl, rfl, ?_, ?_⟩
  · rw [h2]
  · rw [h2]

/-- Claim C6: with the machine-check-pending bit set, the routine panics
before dispatching any vector. -/
theorem mc_pending_panics (d : HVDoorbell) (hmc : d.flags &&& 0x2 ≠ 0) :
    (process_pending_events d).panicked = true
    ∧ (process_pending_events d).dispatched = [] := by
  have h1 : process_pending_events d
      = ⟨[], { d with flags := d.flags &&& KEEPFLAGS }, true⟩ := by
    unfold process_pending_events
    rw [if_pos hmc]
  rw [h1]
  exact ⟨rfl, rfl⟩

/-- Bit-level effect of the fetch_and mask on the flags byte: bits 0 and 7
cleared, bits 1..6 preserved. -/
theorem keepflags_bits (x : Nat) :
    (x &&& KEEPFLAGS).testBit 0 = false
    ∧ (x &&& KEEPFLAGS).testBit 7 = false
    ∧ (x &&& KEEPFLAGS).testBit 1 = x.testBit 1
    ∧ (x &&& KEEPFLAGS).testBit 2 = x.testBit 2
    ∧ (x &&& KEEPFLAGS).testBit 3 = x.testBit 3
    ∧ (x &&& KEEPFLAGS).testBit 4 = x.testBit 4
    ∧ (x &&& KEEPFLAGS).testBit 5 = x.testBit 5
    ∧ (x &&& KEEPFLAGS).testBit 6 = x.testBit 6 := by
  refine ⟨?_, ?_, ?_, ?_, ?_, ?_, ?_, ?_⟩
  · rw [Nat.testBit_and, (by decide : KEEPFLAGS.testBit 0 = false), Bool.and_false]
  · rw [Nat.testBit_and, (by decide : KEEPFLAGS.testBit 7 = false), Bool.and_false]
  · rw [Nat.testBit_and, (by decide : KEEPFLAGS.testBit 1 = true), Bool.and_true]
  · rw [Nat.testBit_and, (by decide : KEEPFLAGS.testBit 2 = true), Bool.and_true]
  · rw [Nat.testBit_and, (by decide : KEEPFLAGS.testBit 3 = true), Bool.and_true]
  · rw [Nat.testBit_and, (by decide : KEEPFLAGS.testBit 4 = true), Bool.and_true]
  · rw [Nat.testBit_and, (by decide : KEEPFLAGS.testBit 5 = true), Bool.and_true]
  · rw [Nat.testBit_and, (by decide : KEEPFLAGS.testBit 6 = true), Bool.and_true]

/-- Claim C10: process_pending_events touches only the flags byte (bits 0
and 7 cleared, bits 1..6 preserved) and the pending-vector byte; every
other doorbell field is unchanged, and on the non-panic path the vector
byte is zero. -/
theorem process_pending_events_frame (d : HVDoorbell) :
    (process_pending_events d).state.flags = d.flags &&& KEEPFLAGS
    ∧ ((process_pending_events d).state.flags).testBit 0 = false
    ∧ ((process_pending_events d).state.flags).testBit 7 = false
    ∧ ((process_pending_events d).state.flags).testBit 1 = d.flags.testBit 1
    ∧ ((process_pending_events d).state.flags).testBit 2 = d.flags.testBit 2
    ∧ ((process_pending_events d).state.flags).testBit 3 = d.flags.testBit 3
    ∧ ((process_pending_events d).state.flags).testBit 4 = d.flags.testBit 4
    ∧ ((process_pending_events d).state.flags).testBit 5 = d.flags.testBit 5
    ∧ ((process_pending_events d).state.flags).testBit 6 = d.flags.testBit 6
    ∧ (process_pending_events d).state.no_eoi_required = d.no_eoi_required
    ∧ (process_pending_events d).state.per_vmpl_events = d.per_vmpl_events
    ∧ (process_pending_events d).state.reserved_63_4 = d.reserved_63_4
    ∧ (process_pending_events d).state.per_vmpl = d.per_vmpl
    ∧ ((process_pending_events d).panicked = false →
        (process_pending_events d).state.vector = 0) := by
  obtain ⟨k0, k7, k1, k2, k3, k4, k5, k6⟩ := keepflags_bits d.flags
  by_cases hmc : d.flags &&& 0x2 ≠ 0
  · have h1 : process_pending_events d
        = ⟨[], { d with flags := d.flags &&& KEEPFLAGS }, true⟩ := by
      unfold process_pending_events
      rw [if_pos hmc]
    rw [h1]
    refine ⟨rfl, k0, k7, k1, k2, k3, k4, k5, k6, rfl, rfl, rfl, rfl, ?_⟩
    intro h
    exact Bool.noConfusion h
  · have hsnd : (drain { d with flags := d.flags &&& KEEPFLAGS }).2
        = { d with flags := d.flags &&& KEEPFLAGS, vector := 0 } := by
      rw [drain_eq]
      split
      · rfl
      · rfl
    have h1 : (process_pending_events d).state
          = { d with flags := d.flags &&& KEEPFLAGS, vector := 0 }
        ∧ (process_pending_events d).panicked = false := by
      unfold process_pending_events
      rw [if_neg hmc]
      exact ⟨hsnd, rfl⟩
    rw [h1.1]
    refine ⟨rfl, k0, k7, k1, k2, k3, k4, k5, k6, rfl, rfl, rfl, rfl, ?_⟩
    intro _
    rfl

/-- Claim C9: no_eoi_required returns false immediately when bit 0 is
clear (byte unchanged); when bit 0 is set and some CAS attempt within the
fuel bound is not spurious, it returns true and clears the bit, and the
next call returns false until the bit is set again; in general a true
result occurs exactly when bit 0 was observed set, and clears exactly
that bit. -/
theorem no_eoi_required_test_and_clear (d : HVDoorbell) (sched sched2 : Nat → Bool)
    (fuel fuel2 : Nat) :
    (d.no_eoi_required &&& 1 = 0 →
      no_eoi_required sched (fuel + 1) d = some (false, d))
    ∧ (d.no_eoi_required &&& 1 ≠ 0 → (∃ j, j < fuel ∧ sched j = true) →
        no_eoi_required sched fuel d
          = some (true, { d with no_eoi_required := d.no_eoi_required &&& 0xFE })
        ∧ no_eoi_required sched2 (fuel2 + 1)
            { d with no_eoi_required := d.no_eoi_required &&& 0xFE }
          = some (false, { d with no_eoi_required := d.no_eoi_required &&& 0xFE }))
    ∧ (∀ r d2, no_eoi_required sched fuel d = some (r, d2) →
        (r = true → d.no_eoi_required &&& 1 ≠ 0
          ∧ d2.no_eoi_required = d.no_eoi_required &&& 0xFE)
        ∧ (r = false → d.no_eoi_required &&& 1 = 0 ∧ d2 = d)) := by
  refine ⟨?_, ?_, ?_⟩
  · intro hb
    unfold no_eoi_required no_eoi_go
    rw [if_pos hb]
    rfl
  · intro hb hs
    have hclear : (d.no_eoi_required &&& 0xFE) &&& 1 = 0 := by
      rw [Nat.and_assoc, (by decide : (0xFE : Nat) &&& 1 = 0), Nat.and_zero]
    constructor
    · unfold no_eoi_required
      rw [no_eoi_go_set sched fuel 0 d.no_eoi_required hb
        (by obtain ⟨j, hj1, hj2⟩ := hs; exact ⟨j, by omega, by omega, hj2⟩)]
      rfl
    · unfold no_eoi_required no_eoi_go
      rw [if_pos (show ({ d with no_eoi_required := d.no_eoi_required &&& 0xFE }
          : HVDoorbell).no_eoi_required &&& 1 = 0 from hclear)]
      rfl
  · intro r d2 h
    unfold no_eoi_required at h
    cases hg : no_eoi_go sched fuel 0 d.no_eoi_required with
    | none =>
        rw [hg] at h
        exact absurd h (by simp)
    | some p =>
        rw [hg] at h
        rw [Option.map_some'] at h
        simp only [Option.some.injEq, Prod.mk.injEq] at h
        obtain ⟨hfst, hsnd⟩ := h
        have hinv := no_eoi_go_inv sched fuel 0 d.no_eoi_required p.1 p.2 (by rw [hg])
        constructor
        · intro hr
          have p1 : p.1 = true := by rw [hfst, hr]
          obtain ⟨hbb, hb2⟩ := hinv.1 p1
          refine ⟨hbb, ?_⟩
          rw [← hsnd]
          exact hb2
        · intro hr
          have p1 : p.1 = false := by rw [hfst, hr]
          obtain ⟨hbb, hb2⟩ := hinv.2 p1
          refine ⟨hbb, ?_⟩
          rw [← hsnd, hb2]

/-! ## Concrete doorbell states for witnesses and counterexamples -/

/-- An all-zero extended-interrupt-status block. -/
def extZero : HVExtIntInfo := ⟨0, fun _ => 0, fun _ => 0⟩

/-- The freshly allocated (all-zero) doorbell page. -/
def dbZero : HVDoorbell := ⟨0, 0, 0, 0, fun _ => 0, fun _ => extZero⟩

/-- Doorbell with pending vector 0x21 and flags 0 (the concrete scenario of
the spec). -/
def dbV21 : HVDoorbell := { dbZero with vector := 0x21 }

/-- Doorbell with the machine-check-pending flag set. -/
def dbMC : HVDoorbell := { dbZero with flags := 0x2 }

/-- Doorbell with the no-EOI-required bit set. -/
def dbEoi : HVDoorbell := { dbZero with no_eoi_required := 1 }

/-- Concrete evaluation of process_pending_events on dbV21. -/
theorem ppe_dbV21_eq : process_pending_events dbV21
    = ⟨[0x21], { dbV21 with flags := 0, vector := 0 }, false⟩ := by
  unfold process_pending_events
  rw [if_neg (by decide)]
  rw [drain_eq]
  rw [if_neg (by decide)]
  rfl

/-- Witness for claim C5 at the concrete scenario of the spec: vector 0x21,
flags 0. -/
theorem pending_vector_dispatched_once_witness :
    (process_pending_events dbV21).dispatched = [0x21]
    ∧ (process_pending_events dbV21).state.vector = 0
    ∧ (process_pending_events (process_pending_events dbV21).state).dispatched = [] := by
  have h := pending_vector_dispatched_once dbV21 (by decide) (by decide)
  exact ⟨h.2.1, h.2.2.1, h.2.2.2.2⟩

/-- Witness for claim C6. -/
theorem mc_pending_panics_witness :
    (process_pending_events dbMC).panicked = true
    ∧ (process_pending_events dbMC).dispatched = [] :=
  mc_pending_panics dbMC (by decide)

/-- Witness for claim C10, with the non-panic implication discharged at
dbV21. -/
theorem process_pending_events_frame_witness :
    (process_pending_events dbV21).state.no_eoi_required = 0
    ∧ (process_pending_events dbV21).state.vector = 0 := by
  have h := process_pending_events_frame dbV21
  refine ⟨h.2.2.2.2.2.2.2.2.2.1, ?_⟩
  apply h.2.2.2.2.2.2.2.2.2.2.2.2.2
  rw [ppe_dbV21_eq]

/-- Witness for claim C9 at a concrete byte with bit 0 set and an
always-succeeding CAS schedule. -/
theorem no_eoi_required_test_and_clear_witness :
    no_eoi_required (fun _ => true) 1 dbEoi
      = some (true, { dbEoi with no_eoi_required := 0 })
    ∧ no_eoi_required (fun _ => true) 1 { dbEoi with no_eoi_required := 0 }
      = some (false, { dbEoi with no_eoi_required := 0 }) := by
  have h := (no_eoi_required_test_and_clear dbEoi (fun _ => true) (fun _ => true) 1 0).2.1
    (by decide) ⟨0, by decide, rfl⟩
  exact ⟨h.1, h.2⟩

/-! ## Concrete page-table states for witnesses and counterexamples

All concrete walks use vaddr 0, whose 9-bit index is 0 at every level. -/

/-- A page of 512 clear entries. -/
def zeroPage : Nat → Nat := fun _ => 0

/-- A page whose entry 0 is v and whose other entries are clear. -/
def onePage (v : Nat) : Nat → Nat := fun i => if i = 0 then v else 0

/-- Physical memory holding designated pages at 0x1000 (level-2 table),
0x2000 (level-1 table) and 0x3000 (level-0 leaf table). -/
def memOf (p1 p2 p3 : Nat → Nat) : Nat → Nat → Nat :=
  fun pa =>
    if pa = 0x1000 then p1
    else if pa = 0x2000 then p2
    else if pa = 0x3000 then p3
    else zeroPage

/-- A page table whose root entry 0 is e3 and whose heap pages are p1, p2,
p3. -/
def mkSt (e3 : Nat) (p1 p2 p3 : Nat → Nat) : PTState :=
  ⟨onePage e3, memOf p1 p2 p3⟩

/-- Full present path down to a level-0 entry e0: root -> 0x1000 ->
0x2000 -> 0x3000, entry 0 of the leaf page is e0. -/
def stPath (e0 : Nat) : PTState :=
  mkSt 0x1001 (onePage 0x2001) (onePage 0x3001) (onePage e0)

/-- Path to level 1 whose level-1 entry is clear (walk stops at level 1,
entry neither present nor huge). -/
def stL1empty : PTState := mkSt 0x1001 (onePage 0x2001) zeroPage zeroPage

/-- Path to level 1 whose level-1 entry is HUGE but not PRESENT. -/
def stL1hugeNP : PTState := mkSt 0x1001 (onePage 0x2001) (onePage 0x80) zeroPage

/-- Path to level 1 whose level-1 entry is a present huge 2 MiB mapping at
base 0x200000 with the c-bit clear. -/
def stL1huge : PTState := mkSt 0x1001 (onePage 0x2001) (onePage 0x200081) zeroPage

/-- Same, with the c-bit set on the huge entry. -/
def stL1hugeC : PTState :=
  mkSt 0x1001 (onePage 0x2001) (onePage 0x8000000000200081) zeroPage

/-! ## Claim C8 -/

/-- Claim C8: whenever split_4k returns an error (level-2/3 mapping, or
allocation failure on a huge level-1 mapping), the whole page-table state
is returned bit-for-bit unchanged: no error path mutates any entry of any
page. -/
theorem split_4k_err_no_mutation (alloc : Option Nat) (st : PTState) (m : Mapping)
    (s : PTState) (h : split_4k alloc st m = .err s) : s = st := by
  rcases m with ⟨lvl, l⟩
  match lvl with
  | 0 =>
      exact absurd h (by simp [split_4k])
  | 1 =>
      simp only [split_4k] at h
      by_cases h1 : flagsOf (readE st l) &&& HUGE = 0
      · rw [do_split_4k.eq_def] at h
        rw [if_pos h1] at h
        exact absurd h (by simp)
      · rw [do_split_4k.eq_def] at h
        rw [if_neg h1] at h
        cases alloc with
        | none =>
            simp only [Outcome.err.injEq] at h
            exact h.symm
        | some pa =>
            dsimp only at h
            by_cases h2 : set_assert_ok (set_c_bit_addr pa)
            · rw [if_pos h2] at h
              exact absurd h (by simp)
            · rw [if_neg h2] at h
              exact absurd h (by simp)
  | n + 2 =>
      simp only [split_4k, Outcome.err.injEq] at h
      exact h.symm

/-- Witness for claim C8 at a concrete level-3 mapping. -/
theorem split_4k_err_no_mutation_witness :
    split_4k none stL1empty ⟨3, ⟨.heap 0x2000, 0⟩⟩ = .err stL1empty
    ∧ stL1empty = stL1empty := by
  refine ⟨rfl, ?_⟩
  exact split_4k_err_no_mutation none stL1empty ⟨3, ⟨.heap 0x2000, 0⟩⟩ stL1empty rfl

/-! ## Claim C3 -/

/-- Claim C3 (amended): split_4k returns an error for every level-2 and
level-3 mapping reference — whatever the entry holds, including a huge
(1 GiB or larger) mapping — but a level-1 mapping reference whose entry
lacks the huge bit makes it abort (the assert in do_split_4k), not return
an error. -/
theorem split_4k_structural (alloc : Option Nat) (st : PTState) (l : Loc) :
    split_4k alloc st ⟨2, l⟩ = .err st
    ∧ split_4k alloc st ⟨3, l⟩ = .err st
    ∧ (flagsOf (readE st l) &&& HUGE = 0 → split_4k alloc st ⟨1, l⟩ = .panic st) := by
  refine ⟨rfl, rfl, ?_⟩
  intro hnothuge
  simp only [split_4k]
  rw [do_split_4k.eq_def]
  rw [if_pos hnothuge]

/-- Witness for claim C3: the level-2/3 error clauses at a present huge
entry (the unsupported 1 GiB-style case), the panic clause at a
walk-reachable clear level-1 entry. -/
theorem split_4k_structural_witness :
    split_4k none stL1huge ⟨2, ⟨.heap 0x2000, 0⟩⟩ = .err stL1huge
    ∧ split_4k none stL1huge ⟨3, ⟨.heap 0x2000, 0⟩⟩ = .err stL1huge
    ∧ split_4k none stL1empty ⟨1, ⟨.heap 0x2000, 0⟩⟩ = .panic stL1empty := by
  have h1 := split_4k_structural none stL1huge ⟨.heap 0x2000, 0⟩
  have h2 := split_4k_structural none stL1empty ⟨.heap 0x2000, 0⟩
  exact ⟨h1.1, h1.2.1, h2.2.2 (by decide)⟩

/-- Counterexample for claim C3 as stated: on the walk-produced level-1
mapping of a not-present, non-huge entry, split_4k panics (assert
failure) instead of returning an error. -/
theorem split_4k_nonhuge_counterexample :
    isPanicO (split_4k (some 0x5000) stL1empty (walk_addr stL1empty 0)) = true
    ∧ isErrO (split_4k (some 0x5000) stL1empty (walk_addr stL1empty 0)) = false := by
  decide

/-! ## Claim C4: walk characterization -/

/-- The level-2 table the walk follows from the root entry (none when that
entry is not followable). -/
def l2tab (st : PTState) (v : Nat) : Option Nat :=
  entry_to_pagetable (pageAt st .root (pt_index 3 v))

/-- The level-1 table the walk reaches (none when the walk stops at level 3
or 2). -/
def l1tab (st : PTState) (v : Nat) : Option Nat :=
  (l2tab st v).bind (fun a => entry_to_pagetable (pageAt st (.heap a) (pt_index 2 v)))

/-- The level-0 leaf table the walk reaches (none when the walk stops
earlier). -/
def l0tab (st : PTState) (v : Nat) : Option Nat :=
  (l1tab st v).bind (fun a => entry_to_pagetable (pageAt st (.heap a) (pt_index 1 v)))

/-- Comparison definition following the words of the spec: an address is
mapped at 4 KiB granularity when the walk path reaches a level-0 leaf
table and the leaf entry there is present. -/
def mappedAt4K_spec (st : PTState) (v : Nat) : Prop :=
  ∃ a, l0tab st v = some a ∧ pageAt st (.heap a) (pt_index 0 v) &&& PRESENT ≠ 0

/-- Comparison definition following the words of the spec: an address is
mapped at 2 MiB granularity when the walk path reaches a level-1 table
whose entry for the address is present and huge. -/
def mappedAt2M_spec (st : PTState) (v : Nat) : Prop :=
  ∃ a, l1tab st v = some a
    ∧ pageAt st (.heap a) (pt_index 1 v) &&& PRESENT ≠ 0
    ∧ pageAt st (.heap a) (pt_index 1 v) &&& HUGE ≠ 0

/-- Claim C4 (amended): walk_addr always returns a mapping reference; it
follows an entry exactly when the entry is present and not huge, and tags
the result with the stopping level.  It returns level 0 exactly when the
three upper entries on the path are followable (in particular whenever the
address is mapped at 4 KiB granularity), and level 1 exactly when levels 3
and 2 are followed but the level-1 entry is not (in particular whenever
the address is mapped at 2 MiB granularity); the converses with respect to
mapped-at-granularity fail because the stopping entry may be not
present. -/
theorem walk_levels (st : PTState) (v : Nat) :
    ((walk_addr st v).level = 0 ↔ l0tab st v ≠ none)
    ∧ ((walk_addr st v).level = 1 ↔ (l1tab st v ≠ none ∧ l0tab st v = none))
    ∧ (∀ a, l0tab st v = some a → walk_addr st v = ⟨0, ⟨.heap a, pt_index 0 v⟩⟩)
    ∧ (mappedAt4K_spec st v → (walk_addr st v).level = 0)
    ∧ (mappedAt2M_spec st v → (walk_addr st v).level = 1)
    ∧ (∀ e, entry_to_pagetable e = none ↔ (e &&& PRESENT = 0 ∨ e &&& HUGE ≠ 0)) := by
  have hfollow : ∀ e, entry_to_pagetable e = none ↔ (e &&& PRESENT = 0 ∨ e &&& HUGE ≠ 0) := by
    intro e
    unfold entry_to_pagetable
    by_cases hc : e &&& PRESENT = 0 ∨ e &&& HUGE ≠ 0
    · rw [if_pos hc]
      simp [hc]
    · rw [if_neg hc]
      simp [hc]
  cases h3 : entry_to_pagetable (pageAt st PageLoc.root (pt_index 3 v)) with
  | none =>
      have hw : walk_addr st v = ⟨3, ⟨.root, pt_index 3 v⟩⟩ := by
        unfold walk_addr walk_addr_lvl3
        rw [h3]
      have hl1 : l1tab st v = none := by
        unfold l1tab l2tab
        rw [h3]
        rfl
      have hl0 : l0tab st v = none := by
        unfold l0tab
        rw [hl1]
        rfl
      rw [hw]
      refine ⟨by simp [hl0], by simp [hl1], ?_, ?_, ?_, hfollow⟩
      · intro a ha
        rw [hl0] at ha
        exact absurd ha (by simp)
      · rintro ⟨a, ha, _⟩
        rw [hl0] at ha
        exact absurd ha (by simp)
      · rintro ⟨a, ha, _⟩
        rw [hl1] at ha
        exact absurd ha (by simp)
  | some a2 =>
      have hl2 : l2tab st v = some a2 := h3
      cases h2 : entry_to_pagetable (pageAt st (PageLoc.heap a2) (pt_index 2 v)) with
      | none =>
          have hw : walk_addr st v = ⟨2, ⟨.heap a2, pt_index 2 v⟩⟩ := by
            unfold walk_addr walk_addr_lvl3 walk_addr_lvl2
            rw [h3]
            dsimp only
            rw [h2]
          have hl1 : l1tab st v = none := by
            unfold l1tab
            rw [hl2]
            exact h2
          have hl0 : l0tab st v = none := by
            unfold l0tab
            rw [hl1]
            rfl
          rw [hw]
          refine ⟨by simp [hl0], by simp [hl1], ?_, ?_, ?_, hfollow⟩
          · intro a ha
            rw [hl0] at ha
            exact absurd ha (by simp)
          · rintro ⟨a, ha, _⟩
            rw [hl0] at ha
            exact absurd ha (by simp)
          · rintro ⟨a, ha, _⟩
            rw [hl1] at ha
            exact absurd ha (by simp)
      | some a1 =>
          have hl1 : l1tab st v = some a1 := by
            unfold l1tab
            rw [hl2]
            exact h2
          cases h1 : entry_to_pagetable (pageAt st (PageLoc.heap a1) (pt_index 1 v)) with
          | none =>
              have hw : walk_addr st v = ⟨1, ⟨.heap a1, pt_index 1 v⟩⟩ := by
                unfold walk_addr walk_addr_lvl3 walk_addr_lvl2 walk_addr_lvl1
                rw [h3]
                dsimp only
                rw [h2]
                dsimp only
                rw [h1]
              have hl0 : l0tab st v = none := by
                unfold l0tab
                rw [hl1]
                exact h1
              rw [hw]
              refine ⟨by simp [hl0], by simp [hl1, hl0], ?_, ?_, ?_, hfollow⟩
              · intro a ha
                rw [hl0] at ha
                exact absurd ha (by simp)
              · rintro ⟨a, ha, _⟩
                rw [hl0] at ha
                exact absurd ha (by simp)
              · intro _
                rfl
          | some a0 =>
              have hl0 : l0tab st v = some a0 := by
                unfold l0tab
                rw [hl1]
                exact h1
              have hw : walk_addr st v = ⟨0, ⟨.heap a0, pt_index 0 v⟩⟩ := by
                unfold walk_addr walk_addr_lvl3 walk_addr_lvl2 walk_addr_lvl1 walk_addr_lvl0
                rw [h3]
                dsimp only
                rw [h2]
                dsimp only
                rw [h1]
              rw [hw]
              refine ⟨by simp [hl0], by simp [hl0], ?_, ?_, ?_, hfollow⟩
              · intro a ha
                rw [hl0] at ha
                have : a0 = a := by
                  injection ha
                subst this
                rfl
              · intro _
                rfl
              · rintro ⟨a, ha, hp, hh⟩
                rw [hl1] at ha
                have hae : a1 = a := by
                  injection ha
                subst hae
                unfold entry_to_pagetable at h1
                by_cases hc : pageAt st (PageLoc.heap a1) (pt_index 1 v) &&& PRESENT = 0
                    ∨ pageAt st (PageLoc.heap a1) (pt_index 1 v) &&& HUGE ≠ 0
                · rw [if_pos hc] at h1
                  exact absurd h1 (by simp)
                · push_neg at hc
                  exact absurd hc.2 hh

/-- Witness for claim C4 at two concrete tables: a fully mapped 4 KiB path
and a present huge 2 MiB mapping. -/
theorem walk_levels_witness :
    walk_addr (stPath 0x4007) 0 = ⟨0, ⟨.heap 0x3000, 0⟩⟩
    ∧ (walk_addr stL1hugeC 0).level = 1 := by
  refine ⟨?_, ?_⟩
  · exact (walk_levels (stPath 0x4007) 0).2.2.1 0x3000 (by decide)
  · exact (walk_levels stL1hugeC 0).2.2.2.2.1 ⟨0x2000, by decide, by decide, by decide⟩

/-- Counterexample for claim C4 as stated: a table whose walk path is fully
followable down to the leaf table but whose leaf entry is clear.  walk_addr
returns a level-0 mapping, yet the address is not mapped at 4 KiB
granularity, refuting the claimed equivalence. -/
theorem walk_level0_not_mapped_counterexample :
    (walk_addr (stPath 0) 0).level = 0 ∧ ¬ mappedAt4K_spec (stPath 0) 0 := by
  refine ⟨by decide, ?_⟩
  rintro ⟨a, ha, hp⟩
  rw [show l0tab (stPath 0) 0 = some 0x3000 from by decide] at ha
  have hae : (0x3000 : Nat) = a := by
    injection ha
  subst hae
  exact hp (by decide)

/-! ## State read/write lemmas -/

/-- Writing an entry of a location outside heap page pa leaves page pa
unchanged. -/
theorem writeE_mem_other (st : PTState) (l : Loc) (v pa : Nat)
    (h : l.pl ≠ .heap pa) : (writeE st l v).mem pa = st.mem pa := by
  rcases l with ⟨pl, idx⟩
  cases pl with
  | root => rfl
  | heap q =>
      have hq : ¬ pa = q := by
        intro he
        exact h (by rw [he])
      show (if pa = q then updFn (st.mem q) idx v else st.mem pa) = st.mem pa
      rw [if_neg hq]

/-- Reading back the entry just written. -/
theorem writeE_read_self (st : PTState) (l : Loc) (v : Nat) :
    readE (writeE st l v) l = v := by
  rcases l with ⟨pl, idx⟩
  cases pl with
  | root =>
      show updFn st.rootPage idx v idx = v
      unfold updFn
      rw [if_pos rfl]
  | heap q =>
      show (if q = q then updFn (st.mem q) idx v else st.mem q) idx = v
      rw [if_pos rfl]
      unfold updFn
      rw [if_pos rfl]

/-- The page just written by writePage. -/
theorem writePage_mem_self (st : PTState) (pa : Nat) (p : Nat → Nat) :
    (writePage st pa p).mem pa = p := by
  show (if pa = pa then p else st.mem pa) = p
  rw [if_pos rfl]

/-- writePage leaves other pages unchanged. -/
theorem writePage_mem_other (st : PTState) (pa : Nat) (p : Nat → Nat) (q : Nat)
    (h : q ≠ pa) : (writePage st pa p).mem q = st.mem q := by
  show (if q = pa then p else st.mem q) = st.mem q
  rw [if_neg h]

/-- writePage leaves the root page unchanged. -/
theorem writePage_root (st : PTState) (pa : Nat) (p : Nat → Nat) :
    (writePage st pa p).rootPage = st.rootPage := rfl

/-- writeE leaves the root page unchanged when the location is a heap
page. -/
theorem writeE_root_of_heap (st : PTState) (q idx : Nat) (v : Nat) :
    (writeE st ⟨.heap q, idx⟩ v).rootPage = st.rootPage := rfl

/-- writeE on a heap location changes only entry idx of page q. -/
theorem writeE_mem_heap (st : PTState) (q idx v pa : Nat) :
    (writeE st ⟨.heap q, idx⟩ v).mem pa
      = if pa = q then updFn (st.mem q) idx v else st.mem pa := rfl

/-! ## Claim C1: splitting a present huge mapping -/

/-- Claim C1 (amended): splitting a present huge level-1 entry with
2 MiB-aligned base installs a fresh 512-entry leaf table whose entry i
carries physical address base + i*4096 and the huge entry flags minus the
huge bit; every leaf entry has the confidentiality bit set (encrypted) —
it agrees with the original entry only when the original was encrypted —
and the original entry is replaced by a pointer to the new leaf table with
all flags preserved except the huge bit (and the confidentiality bit set
on the new pointer). -/
theorem split_4k_huge_install (st : PTState) (l : Loc) (pa : Nat)
    (hhuge : flagsOf (readE st l) &&& HUGE ≠ 0)
    (hpres : readE st l &&& PRESENT ≠ 0)
    (halign : address (readE st l) % 2097152 = 0)
    (hpa : pa &&& ANC = pa)
    (hfresh : l.pl ≠ PageLoc.heap pa) :
    ∃ s1, split_4k (some pa) st ⟨1, l⟩ = .ok s1
      ∧ (∀ i, i < 512 →
          address (s1.mem pa i) = address (readE st l) + i * 4096
          ∧ flagsOf (s1.mem pa i) = flagsOf (readE st l) &&& REMHUGE
          ∧ cbit (s1.mem pa i) = true)
      ∧ address (readE s1 l) = pa
      ∧ flagsOf (readE s1 l) = flagsOf (readE st l) &&& REMHUGE
      ∧ cbit (readE s1 l) = true := by
  have heq : split_4k (some pa) st ⟨1, l⟩
      = .ok (writeE (writePage st pa (split_leaf_page st l pa)) l
          (pte_set (set_c_bit_addr pa) (flagsOf (readE st l) &&& REMHUGE))) := by
    simp only [split_4k]
    rw [do_split_4k.eq_def]
    rw [if_neg hhuge]
    dsimp only
    rw [if_pos (set_assert_ok_of_ANC pa hpa)]
  have hG : readE st l &&& FLAGMASK &&& REMHUGE = readE st l &&& 0x8000000000000167 := by
    rw [Nat.and_assoc, (by decide : FLAGMASK &&& REMHUGE = 0x8000000000000167)]
  have hnfF : (flagsOf (readE st l) &&& REMHUGE) &&& FLAGMASK
      = flagsOf (readE st l) &&& REMHUGE := by
    unfold flagsOf
    rw [hG, Nat.and_assoc, (by decide : (0x8000000000000167 : Nat) &&& FLAGMASK
      = 0x8000000000000167)]
  have hbase := (land_ANC_self_iff (address (readE st l))).mp (land_ANC_of_address _)
  have haddr2m : address (readE st l) &&& MASK2M = address (readE st l) := by
    rw [land_MASK2M_self_iff]
    omega
  have hxANC : ∀ i, i < 512 →
      (address (readE st l) + i * 4096) &&& ANC = address (readE st l) + i * 4096 := by
    intro i hi
    rw [land_ANC_self_iff]
    constructor
    · omega
    · have h21 : address (readE st l) % 2097152 = 0 := halign
      have : address (readE st l) + i * 4096 ≤ (2 ^ 51 - 2097152) + 511 * 4096 := by
        have hle : address (readE st l) ≤ 2 ^ 51 - 2097152 := by omega
        have hle2 : i * 4096 ≤ 511 * 4096 := by omega
        omega
      omega
  have hmem : ∀ i, i < 512 →
      (writeE (writePage st pa (split_leaf_page st l pa)) l
        (pte_set (set_c_bit_addr pa) (flagsOf (readE st l) &&& REMHUGE))).mem pa i
      = pte_set (set_c_bit_addr (address (readE st l) + i * 4096))
          (flagsOf (readE st l) &&& REMHUGE) := by
    intro i hi
    rw [writeE_mem_other _ _ _ _ hfresh, writePage_mem_self]
    unfold split_leaf_page
    rw [if_pos hi, haddr2m]
  refine ⟨_, heq, ?_, ?_, ?_, ?_⟩
  · intro i hi
    rw [hmem i hi]
    exact ⟨address_pte_set_c _ _ (hxANC i hi) hnfF,
      flagsOf_pte_set_c _ _ (hxANC i hi) hnfF,
      cbit_pte_set_c _ _⟩
  · rw [writeE_read_self]
    exact address_pte_set_c _ _ hpa hnfF
  · rw [writeE_read_self]
    exact flagsOf_pte_set_c _ _ hpa hnfF
  · rw [writeE_read_self]
    exact cbit_pte_set_c _ _

/-- Witness for claim C1 at the concrete encrypted huge mapping. -/
theorem split_4k_huge_install_witness :
    isOkO (split_4k (some 0x5000) stL1hugeC ⟨1, ⟨.heap 0x2000, 0⟩⟩) = true
    ∧ address ((stateO (split_4k (some 0x5000) stL1hugeC
        ⟨1, ⟨.heap 0x2000, 0⟩⟩)).mem 0x5000 7) = 0x207000
    ∧ cbit ((stateO (split_4k (some 0x5000) stL1hugeC
        ⟨1, ⟨.heap 0x2000, 0⟩⟩)).mem 0x5000 7) = true := by
  obtain ⟨s1, heq, hleaf, _⟩ := split_4k_huge_install stL1hugeC ⟨.heap 0x2000, 0⟩ 0x5000
    (by decide) (by decide) (by decide) (by decide) (by decide)
  rw [heq]
  refine ⟨rfl, ?_, (hleaf 7 (by decide)).2.2⟩
  rw [show (stateO (Outcome.ok s1)) = s1 from rfl, (hleaf 7 (by decide)).1]
  decide

/-- Counterexample for claim C1 as stated: splitting a present huge entry
whose confidentiality bit is clear succeeds, yet every installed leaf
entry has the confidentiality bit set — not the same bit as the original
huge entry. -/
theorem split_4k_cbit_counterexample :
    isOkO (split_4k (some 0x5000) stL1huge ⟨1, ⟨.heap 0x2000, 0⟩⟩) = true
    ∧ cbit (readE stL1huge ⟨.heap 0x2000, 0⟩) = false
    ∧ cbit ((stateO (split_4k (some 0x5000) stL1huge
        ⟨1, ⟨.heap 0x2000, 0⟩⟩)).mem 0x5000 0) = true := by
  decide

/-! ## Claim C2: shared-then-encrypted round trip -/

/-- A fully followable path makes the walk return the level-0 mapping of
the leaf table a0. -/
theorem walk_addr_of_path0 (st : PTState) (v a2 a1 a0 : Nat)
    (h3 : entry_to_pagetable (pageAt st .root (pt_index 3 v)) = some a2)
    (h2 : entry_to_pagetable (pageAt st (.heap a2) (pt_index 2 v)) = some a1)
    (h1 : entry_to_pagetable (pageAt st (.heap a1) (pt_index 1 v)) = some a0) :
    walk_addr st v = ⟨0, ⟨.heap a0, pt_index 0 v⟩⟩ := by
  unfold walk_addr walk_addr_lvl3 walk_addr_lvl2 walk_addr_lvl1 walk_addr_lvl0
  rw [h3]
  dsimp only
  rw [h2]
  dsimp only
  rw [h1]

/-- Computes set_shared_4k when the walk yields a level-0 mapping: the
split is a no-op and the c-bit of the level-0 entry is cleared in
place. -/
theorem set_shared_4k_level0 (alloc : Option Nat) (st : PTState) (v : Nat) (l : Loc)
    (hw : walk_addr st v = ⟨0, l⟩) :
    set_shared_4k alloc st v = .ok (writeE st l (clear_c_bit (readE st l))) := by
  unfold set_shared_4k
  rw [hw]
  simp only [split_4k]
  rw [hw]
  rfl

/-- Computes set_encrypted_4k when the walk yields a level-0 mapping. -/
theorem set_encrypted_4k_level0 (alloc : Option Nat) (st : PTState) (v : Nat) (l : Loc)
    (hw : walk_addr st v = ⟨0, l⟩) :
    set_encrypted_4k alloc st v = .ok (writeE st l (set_c_bit_entry (readE st l))) := by
  unfold set_encrypted_4k
  rw [hw]
  simp only [split_4k]
  rw [hw]
  rfl

/-- Claim C2 (amended): on a present level-0 mapping whose entry is
encrypted (c-bit set), set_shared_4k followed by set_encrypted_4k both
succeed and restore the original confidentiality bit, leaving all flag
bits and the physical address of the level-0 entry unchanged.  (Without
the encrypted precondition the pair always leaves the c-bit set, so an
originally shared entry is not restored — see the counterexample.) -/
theorem shared_then_encrypted_roundtrip (st : PTState) (v a2 a1 a0 : Nat)
    (alloc alloc2 : Option Nat)
    (h3 : entry_to_pagetable (pageAt st .root (pt_index 3 v)) = some a2)
    (h2 : entry_to_pagetable (pageAt st (.heap a2) (pt_index 2 v)) = some a1)
    (h1 : entry_to_pagetable (pageAt st (.heap a1) (pt_index 1 v)) = some a0)
    (hne2 : a0 ≠ a2) (hne1 : a0 ≠ a1)
    (hpres : readE st ⟨.heap a0, pt_index 0 v⟩ &&& PRESENT ≠ 0)
    (hcbit : cbit (readE st ⟨.heap a0, pt_index 0 v⟩) = true) :
    ∃ s1 s2,
      set_shared_4k alloc st v = .ok s1
      ∧ set_encrypted_4k alloc2 s1 v = .ok s2
      ∧ cbit (readE s2 ⟨.heap a0, pt_index 0 v⟩)
          = cbit (readE st ⟨.heap a0, pt_index 0 v⟩)
      ∧ flagsOf (readE s2 ⟨.heap a0, pt_index 0 v⟩)
          = flagsOf (readE st ⟨.heap a0, pt_index 0 v⟩)
      ∧ address (readE s2 ⟨.heap a0, pt_index 0 v⟩)
          = address (readE st ⟨.heap a0, pt_index 0 v⟩) := by
  have hw := walk_addr_of_path0 st v a2 a1 a0 h3 h2 h1
  have hss := set_shared_4k_level0 alloc st v ⟨.heap a0, pt_index 0 v⟩ hw
  have hroot1 : (writeE st ⟨.heap a0, pt_index 0 v⟩
      (clear_c_bit (readE st ⟨.heap a0, pt_index 0 v⟩))).rootPage = st.rootPage := rfl
  have hmem2 : (writeE st ⟨.heap a0, pt_index 0 v⟩
      (clear_c_bit (readE st ⟨.heap a0, pt_index 0 v⟩))).mem a2 = st.mem a2 := by
    rw [writeE_mem_heap]
    rw [if_neg (fun he => hne2 he.symm)]
  have hmem1 : (writeE st ⟨.heap a0, pt_index 0 v⟩
      (clear_c_bit (readE st ⟨.heap a0, pt_index 0 v⟩))).mem a1 = st.mem a1 := by
    rw [writeE_mem_heap]
    rw [if_neg (fun he => hne1 he.symm)]
  have hw1 : walk_addr (writeE st ⟨.heap a0, pt_index 0 v⟩
      (clear_c_bit (readE st ⟨.heap a0, pt_index 0 v⟩))) v
      = ⟨0, ⟨.heap a0, pt_index 0 v⟩⟩ := by
    apply walk_addr_of_path0 _ v a2 a1 a0
    · show entry_to_pagetable ((writeE st ⟨.heap a0, pt_index 0 v⟩
        (clear_c_bit (readE st ⟨.heap a0, pt_index 0 v⟩))).rootPage (pt_index 3 v)) = some a2
      rw [hroot1]
      exact h3
    · show entry_to_pagetable ((writeE st ⟨.heap a0, pt_index 0 v⟩
        (clear_c_bit (readE st ⟨.heap a0, pt_index 0 v⟩))).mem a2 (pt_index 2 v)) = some a1
      rw [hmem2]
      exact h2
    · show entry_to_pagetable ((writeE st ⟨.heap a0, pt_index 0 v⟩
        (clear_c_bit (readE st ⟨.heap a0, pt_index 0 v⟩))).mem a1 (pt_index 1 v)) = some a0
      rw [hmem1]
      exact h1
  have hse := set_encrypted_4k_level0 alloc2 (writeE st ⟨.heap a0, pt_index 0 v⟩
      (clear_c_bit (readE st ⟨.heap a0, pt_index 0 v⟩))) v ⟨.heap a0, pt_index 0 v⟩ hw1
  refine ⟨_, _, hss, hse, ?_, ?_, ?_⟩
  all_goals rw [writeE_read_self, writeE_read_self]
  · rw [cbit_set_c_bit_entry, hcbit]
  · rw [flagsOf_set_c_bit_entry, flagsOf_clear_c_bit]
  · rw [address_set_c_bit_entry, address_clear_c_bit]

/-- Witness for claim C2 at a concrete encrypted level-0 entry. -/
theorem shared_then_encrypted_roundtrip_witness :
    isOkO (set_shared_4k none (stPath 0x0008000000004007) 0) = true
    ∧ cbit (readE (stateO (set_encrypted_4k none
        (stateO (set_shared_4k none (stPath 0x0008000000004007) 0)) 0))
        ⟨.heap 0x3000, 0⟩) = true := by
  obtain ⟨s1, s2, hs1, hs2, hc, _, _⟩ := shared_then_encrypted_roundtrip
    (stPath 0x0008000000004007) 0 0x1000 0x2000 0x3000 none none
    (by decide) (by decide) (by decide) (by decide) (by decide) (by decide) (by decide)
  rw [hs1]
  refine ⟨rfl, ?_⟩
  rw [show stateO (Outcome.ok s1) = s1 from rfl, hs2,
    show stateO (Outcome.ok s2) = s2 from rfl]
  exact hc.trans (by decide)

/-- Counterexample for claim C2 as stated: on an originally shared
(c-bit clear) present level-0 entry, the pair of calls succeeds but the
resulting entry is encrypted — the original confidentiality bit is not
restored. -/
theorem shared_then_encrypted_cbit_counterexample :
    cbit (readE (stPath 0x4007) ⟨.heap 0x3000, 0⟩) = false
    ∧ isOkO (set_shared_4k none (stPath 0x4007) 0) = true
    ∧ isOkO (set_encrypted_4k none (stateO (set_shared_4k none (stPath 0x4007) 0)) 0) = true
    ∧ cbit (readE (stateO (set_encrypted_4k none
        (stateO (set_shared_4k none (stPath 0x4007) 0)) 0)) ⟨.heap 0x3000, 0⟩) = true := by
  decide

/-! ## Claim C7: toggle errors are exactly split errors -/

/-- Walk stopping at level 3. -/
theorem walk_addr_stop3 (st : PTState) (v : Nat)
    (h3 : entry_to_pagetable (pageAt st .root (pt_index 3 v)) = none) :
    walk_addr st v = ⟨3, ⟨.root, pt_index 3 v⟩⟩ := by
  unfold walk_addr walk_addr_lvl3
  rw [h3]

/-- Walk stopping at level 2. -/
theorem walk_addr_stop2 (st : PTState) (v a2 : Nat)
    (h3 : entry_to_pagetable (pageAt st .root (pt_index 3 v)) = some a2)
    (h2 : entry_to_pagetable (pageAt st (.heap a2) (pt_index 2 v)) = none) :
    walk_addr st v = ⟨2, ⟨.heap a2, pt_index 2 v⟩⟩ := by
  unfold walk_addr walk_addr_lvl3 walk_addr_lvl2
  rw [h3]
  dsimp only
  rw [h2]

/-- Walk stopping at level 1. -/
theorem walk_addr_stop1 (st : PTState) (v a2 a1 : Nat)
    (h3 : entry_to_pagetable (pageAt st .root (pt_index 3 v)) = some a2)
    (h2 : entry_to_pagetable (pageAt st (.heap a2) (pt_index 2 v)) = some a1)
    (h1 : entry_to_pagetable (pageAt st (.heap a1) (pt_index 1 v)) = none) :
    walk_addr st v = ⟨1, ⟨.heap a1, pt_index 1 v⟩⟩ := by
  unfold walk_addr walk_addr_lvl3 walk_addr_lvl2 walk_addr_lvl1
  rw [h3]
  dsimp only
  rw [h2]
  dsimp only
  rw [h1]

/-- set_shared_4k propagates a split error unchanged. -/
theorem set_shared_4k_of_split_err (alloc : Option Nat) (st : PTState) (v : Nat)
    (s : PTState) (h : split_4k alloc st (walk_addr st v) = .err s) :
    set_shared_4k alloc st v = .err s := by
  unfold set_shared_4k
  rw [h]

/-- set_encrypted_4k propagates a split error unchanged. -/
theorem set_encrypted_4k_of_split_err (alloc : Option Nat) (st : PTState) (v : Nat)
    (s : PTState) (h : split_4k alloc st (walk_addr st v) = .err s) :
    set_encrypted_4k alloc st v = .err s := by
  unfold set_encrypted_4k
  rw [h]

/-- set_shared_4k propagates a split panic. -/
theorem set_shared_4k_of_split_panic (alloc : Option Nat) (st : PTState) (v : Nat)
    (s : PTState) (h : split_4k alloc st (walk_addr st v) = .panic s) :
    set_shared_4k alloc st v = .panic s := by
  unfold set_shared_4k
  rw [h]

/-- set_encrypted_4k propagates a split panic. -/
theorem set_encrypted_4k_of_split_panic (alloc : Option Nat) (st : PTState) (v : Nat)
    (s : PTState) (h : split_4k alloc st (walk_addr st v) = .panic s) :
    set_encrypted_4k alloc st v = .panic s := by
  unfold set_encrypted_4k
  rw [h]

/-- set_shared_4k after a successful split whose re-walk is level 0. -/
theorem set_shared_4k_of_split_ok (alloc : Option Nat) (st : PTState) (v : Nat)
    (s1 : PTState) (l : Loc) (hsp : split_4k alloc st (walk_addr st v) = .ok s1)
    (hw1 : walk_addr s1 v = ⟨0, l⟩) :
    set_shared_4k alloc st v = .ok (writeE s1 l (clear_c_bit (readE s1 l))) := by
  unfold set_shared_4k
  rw [hsp]
  dsimp only
  rw [hw1]
  rfl

/-- set_encrypted_4k after a successful split whose re-walk is level 0. -/
theorem set_encrypted_4k_of_split_ok (alloc : Option Nat) (st : PTState) (v : Nat)
    (s1 : PTState) (l : Loc) (hsp : split_4k alloc st (walk_addr st v) = .ok s1)
    (hw1 : walk_addr s1 v = ⟨0, l⟩) :
    set_encrypted_4k alloc st v = .ok (writeE s1 l (set_c_bit_entry (readE s1 l))) := by
  unfold set_encrypted_4k
  rw [hsp]
  dsimp only
  rw [hw1]
  rfl

/-- Distributes a mask over a three-way or. -/
theorem triple_lor_land (x y z m : Nat) :
    (x ||| y ||| z) &&& m = (x &&& m) ||| (y &&& m) ||| (z &&& m) := by
  rw [Nat.and_distrib_right, Nat.and_distrib_right]

/-- Core of claim C7: after do_split_4k succeeds on a present huge level-1
entry (fresh valid frame pa), re-walking the same virtual address reaches
level 0 through the newly installed leaf table. -/
theorem split_ok_rewalk_level0 (st : PTState) (v a2 a1 pa : Nat)
    (h3 : entry_to_pagetable (pageAt st .root (pt_index 3 v)) = some a2)
    (h2 : entry_to_pagetable (pageAt st (.heap a2) (pt_index 2 v)) = some a1)
    (h1 : entry_to_pagetable (pageAt st (.heap a1) (pt_index 1 v)) = none)
    (hp : pageAt st (.heap a1) (pt_index 1 v) &&& PRESENT ≠ 0)
    (hpaANC : pa &&& ANC = pa) (ha2pa : a2 ≠ pa) (ha1pa : a1 ≠ pa) :
    walk_addr (writeE (writePage st pa (split_leaf_page st ⟨.heap a1, pt_index 1 v⟩ pa))
        ⟨.heap a1, pt_index 1 v⟩
        (pte_set (set_c_bit_addr pa)
          (flagsOf (readE st ⟨.heap a1, pt_index 1 v⟩) &&& REMHUGE))) v
      = ⟨0, ⟨.heap pa, pt_index 0 v⟩⟩ := by
  have hEG : readE st ⟨.heap a1, pt_index 1 v⟩ &&& FLAGMASK &&& REMHUGE
      = readE st ⟨.heap a1, pt_index 1 v⟩ &&& 0x8000000000000167 := by
    rw [Nat.and_assoc, (by decide : FLAGMASK &&& REMHUGE = 0x8000000000000167)]
  have hnfF : (flagsOf (readE st ⟨.heap a1, pt_index 1 v⟩) &&& REMHUGE) &&& FLAGMASK
      = flagsOf (readE st ⟨.heap a1, pt_index 1 v⟩) &&& REMHUGE := by
    unfold flagsOf
    rw [hEG, Nat.and_assoc, (by decide : (0x8000000000000167 : Nat) &&& FLAGMASK
      = 0x8000000000000167)]
  have hpa0 : ∀ m : Nat, ANC &&& m = 0 → pa &&& m = 0 := by
    intro m hm
    rw [← hpaANC, Nat.and_assoc, hm, Nat.and_zero]
  have hnfP : (flagsOf (readE st ⟨.heap a1, pt_index 1 v⟩) &&& REMHUGE) &&& PRESENT
      = readE st ⟨.heap a1, pt_index 1 v⟩ &&& PRESENT := by
    unfold flagsOf
    rw [hEG, Nat.and_assoc, (by decide : (0x8000000000000167 : Nat) &&& PRESENT = PRESENT)]
  have hnfH : (flagsOf (readE st ⟨.heap a1, pt_index 1 v⟩) &&& REMHUGE) &&& HUGE = 0 := by
    unfold flagsOf
    rw [hEG, Nat.and_assoc, (by decide : (0x8000000000000167 : Nat) &&& HUGE = 0),
      Nat.and_zero]
  have hPE1 : pte_set (set_c_bit_addr pa)
      (flagsOf (readE st ⟨.heap a1, pt_index 1 v⟩) &&& REMHUGE) &&& PRESENT ≠ 0 := by
    unfold pte_set set_c_bit_addr
    rw [triple_lor_land, hpa0 PRESENT (by decide),
      (by decide : encrypt_mask &&& PRESENT = 0), hnfP, Nat.zero_or, Nat.zero_or]
    exact hp
  have hPEh : pte_set (set_c_bit_addr pa)
      (flagsOf (readE st ⟨.heap a1, pt_index 1 v⟩) &&& REMHUGE) &&& HUGE = 0 := by
    unfold pte_set set_c_bit_addr
    rw [triple_lor_land, hpa0 HUGE (by decide),
      (by decide : encrypt_mask &&& HUGE = 0), hnfH, Nat.zero_or, Nat.zero_or]
  apply walk_addr_of_path0 _ v a2 a1 pa
  · exact h3
  · have hmem2 : (writeE (writePage st pa (split_leaf_page st ⟨.heap a1, pt_index 1 v⟩ pa))
        ⟨.heap a1, pt_index 1 v⟩
        (pte_set (set_c_bit_addr pa)
          (flagsOf (readE st ⟨.heap a1, pt_index 1 v⟩) &&& REMHUGE))).mem a2 (pt_index 2 v)
        = st.mem a2 (pt_index 2 v) := by
      rw [writeE_mem_heap]
      by_cases ha : a2 = a1
      · rw [if_pos ha]
        unfold updFn
        have hix : ¬ pt_index 2 v = pt_index 1 v := by
          intro hei
          rw [ha] at h2
          rw [hei] at h2
          rw [h1] at h2
          exact Option.noConfusion h2
        rw [if_neg hix]
        rw [writePage_mem_other st pa _ a1 ha1pa]
        rw [ha]
      · rw [if_neg ha]
        rw [writePage_mem_other st pa _ a2 ha2pa]
    show entry_to_pagetable ((writeE (writePage st pa
        (split_leaf_page st ⟨.heap a1, pt_index 1 v⟩ pa)) ⟨.heap a1, pt_index 1 v⟩
        (pte_set (set_c_bit_addr pa)
          (flagsOf (readE st ⟨.heap a1, pt_index 1 v⟩) &&& REMHUGE))).mem a2
        (pt_index 2 v)) = some a1
    rw [hmem2]
    exact h2
  · show entry_to_pagetable ((writeE (writePage st pa
        (split_leaf_page st ⟨.heap a1, pt_index 1 v⟩ pa)) ⟨.heap a1, pt_index 1 v⟩
        (pte_set (set_c_bit_addr pa)
          (flagsOf (readE st ⟨.heap a1, pt_index 1 v⟩) &&& REMHUGE))).mem a1
        (pt_index 1 v)) = some pa
    have hread := writeE_read_self (writePage st pa
        (split_leaf_page st ⟨.heap a1, pt_index 1 v⟩ pa)) ⟨.heap a1, pt_index 1 v⟩
        (pte_set (set_c_bit_addr pa)
          (flagsOf (readE st ⟨.heap a1, pt_index 1 v⟩) &&& REMHUGE))
    rw [show ((writeE (writePage st pa
        (split_leaf_page st ⟨.heap a1, pt_index 1 v⟩ pa)) ⟨.heap a1, pt_index 1 v⟩
        (pte_set (set_c_bit_addr pa)
          (flagsOf (readE st ⟨.heap a1, pt_index 1 v⟩) &&& REMHUGE))).mem a1
        (pt_index 1 v)) = pte_set (set_c_bit_addr pa)
          (flagsOf (readE st ⟨.heap a1, pt_index 1 v⟩) &&& REMHUGE) from hread]
    unfold entry_to_pagetable
    rw [if_neg (by
      rintro (hc | hc)
      · exact hPE1 hc
      · exact hc hPEh)]
    rw [address_pte_set_c pa _ hpaANC hnfF]

/-- Claim C7 (amended): provided the level-1 entry being split is present
and the allocator frame is a valid fresh page address, set_shared_4k and
set_encrypted_4k return an error exactly when the internal split step
fails, surfacing that failure unchanged, and whenever the split step
succeeds the re-walk yields a level-0 mapping.  (For a huge-but-not-
present level-1 entry the split succeeds yet the re-walk stays at level 1
and the toggle returns a recoverable error, not an abort — see the
counterexample.) -/
theorem toggles_err_iff_split_err (alloc : Option Nat) (st : PTState) (v : Nat)
    (hvalid : ∀ pa, alloc = some pa →
      pa &&& ANC = pa ∧ l2tab st v ≠ some pa ∧ l1tab st v ≠ some pa)
    (hpres : (walk_addr st v).level = 1 →
      readE st (walk_addr st v).loc &&& PRESENT ≠ 0) :
    isErrO (set_shared_4k alloc st v) = isErrO (split_4k alloc st (walk_addr st v))
    ∧ isErrO (set_encrypted_4k alloc st v) = isErrO (split_4k alloc st (walk_addr st v))
    ∧ (∀ s1, split_4k alloc st (walk_addr st v) = .ok s1 → (walk_addr s1 v).level = 0) := by
  cases h3 : entry_to_pagetable (pageAt st PageLoc.root (pt_index 3 v)) with
  | none =>
      have hw := walk_addr_stop3 st v h3
      have hsp : split_4k alloc st (walk_addr st v) = .err st := by
        rw [hw]
        rfl
      refine ⟨?_, ?_, ?_⟩
      · rw [set_shared_4k_of_split_err alloc st v st hsp, hsp]
      · rw [set_encrypted_4k_of_split_err alloc st v st hsp, hsp]
      · intro s1 hok
        rw [hsp] at hok
        exact absurd hok (by simp)
  | some a2 =>
      cases h2 : entry_to_pagetable (pageAt st (PageLoc.heap a2) (pt_index 2 v)) with
      | none =>
          have hw := walk_addr_stop2 st v a2 h3 h2
          have hsp : split_4k alloc st (walk_addr st v) = .err st := by
            rw [hw]
            rfl
          refine ⟨?_, ?_, ?_⟩
          · rw [set_shared_4k_of_split_err alloc st v st hsp, hsp]
          · rw [set_encrypted_4k_of_split_err alloc st v st hsp, hsp]
          · intro s1 hok
            rw [hsp] at hok
            exact absurd hok (by simp)
      | some a1 =>
          cases h1 : entry_to_pagetable (pageAt st (PageLoc.heap a1) (pt_index 1 v)) with
          | some a0 =>
              have hw := walk_addr_of_path0 st v a2 a1 a0 h3 h2 h1
              have hsp : split_4k alloc st (walk_addr st v) = .ok st := by
                rw [hw]
                rfl
              have hss := set_shared_4k_of_split_ok alloc st v st
                ⟨.heap a0, pt_index 0 v⟩ hsp hw
              have hse := set_encrypted_4k_of_split_ok alloc st v st
                ⟨.heap a0, pt_index 0 v⟩ hsp hw
              refine ⟨?_, ?_, ?_⟩
              · rw [hss, hsp]
                rfl
              · rw [hse, hsp]
                rfl
              · intro s1 hok
                rw [hsp] at hok
                have he : st = s1 := by
                  injection hok
                subst he
                rw [hw]
          | none =>
              have hw := walk_addr_stop1 st v a2 a1 h3 h2 h1
              have hp : readE st ⟨.heap a1, pt_index 1 v⟩ &&& PRESENT ≠ 0 := by
                have hh := hpres (by rw [hw])
                rw [hw] at hh
                exact hh
              have hfh : ¬ (flagsOf (readE st ⟨.heap a1, pt_index 1 v⟩) &&& HUGE = 0) := by
                have hhugeE : pageAt st (.heap a1) (pt_index 1 v) &&& HUGE ≠ 0 := by
                  unfold entry_to_pagetable at h1
                  by_cases hc : pageAt st (.heap a1) (pt_index 1 v) &&& PRESENT = 0
                      ∨ pageAt st (.heap a1) (pt_index 1 v) &&& HUGE ≠ 0
                  · rcases hc with hc | hc
                    · exact absurd hc hp
                    · exact hc
                  · rw [if_neg hc] at h1
                    exact absurd h1 (by simp)
                unfold flagsOf
                rw [Nat.and_assoc, (by decide : FLAGMASK &&& HUGE = HUGE)]
                exact hhugeE
              cases alloc with
              | none =>
                  have hsp : split_4k none st (walk_addr st v) = .err st := by
                    rw [hw]
                    simp only [split_4k]
                    rw [do_split_4k.eq_def]
                    rw [if_neg hfh]
                  refine ⟨?_, ?_, ?_⟩
                  · rw [set_shared_4k_of_split_err none st v st hsp, hsp]
                  · rw [set_encrypted_4k_of_split_err none st v st hsp, hsp]
                  · intro s1 hok
                    rw [hsp] at hok
                    exact absurd hok (by simp)
              | some pa =>
                  obtain ⟨hpaANC, hl2ne, hl1ne⟩ := hvalid pa rfl
                  have ha2pa : a2 ≠ pa := by
                    intro he
                    apply hl2ne
                    rw [← he]
                    exact h3
                  have ha1pa : a1 ≠ pa := by
                    intro he
                    apply hl1ne
                    rw [← he]
                    unfold l1tab
                    rw [show l2tab st v = some a2 from h3]
                    exact h2
                  have hsp : split_4k (some pa) st (walk_addr st v)
                      = .ok (writeE (writePage st pa
                          (split_leaf_page st ⟨.heap a1, pt_index 1 v⟩ pa))
                          ⟨.heap a1, pt_index 1 v⟩
                          (pte_set (set_c_bit_addr pa)
                            (flagsOf (readE st ⟨.heap a1, pt_index 1 v⟩) &&& REMHUGE))) := by
                    rw [hw]
                    simp only [split_4k]
                    rw [do_split_4k.eq_def]
                    rw [if_neg hfh]
                    dsimp only
                    rw [if_pos (set_assert_ok_of_ANC pa hpaANC)]
                  have hw1 := split_ok_rewalk_level0 st v a2 a1 pa h3 h2 h1 hp
                    hpaANC ha2pa ha1pa
                  have hss := set_shared_4k_of_split_ok (some pa) st v _
                    ⟨.heap pa, pt_index 0 v⟩ hsp hw1
                  have hse := set_encrypted_4k_of_split_ok (some pa) st v _
                    ⟨.heap pa, pt_index 0 v⟩ hsp hw1
                  refine ⟨?_, ?_, ?_⟩
                  · rw [hss, hsp]
                    rfl
                  · rw [hse, hsp]
                    rfl
                  · intro s1 hok
                    rw [hsp] at hok
                    have he : writeE (writePage st pa
                        (split_leaf_page st ⟨.heap a1, pt_index 1 v⟩ pa))
                        ⟨.heap a1, pt_index 1 v⟩
                        (pte_set (set_c_bit_addr pa)
                          (flagsOf (readE st ⟨.heap a1, pt_index 1 v⟩) &&& REMHUGE)) = s1 := by
                      injection hok
                    rw [← he, hw1]

/-- Witness for claim C7 at a concrete level-0 mapping with a null
allocator oracle. -/
theorem toggles_err_iff_split_err_witness :
    isErrO (set_shared_4k none (stPath 0x4007) 0)
      = isErrO (split_4k none (stPath 0x4007) (walk_addr (stPath 0x4007) 0)) :=
  (toggles_err_iff_split_err none (stPath 0x4007) 0
    (fun _ h => Option.noConfusion h) (by decide)).1

/-- Counterexample for claim C7 as stated: on a huge-but-not-present
level-1 entry the split succeeds, yet set_shared_4k returns a recoverable
error (the re-walk is not level 0), so errors are not exactly split
failures and the violating path returns an error rather than aborting. -/
theorem set_shared_err_split_ok_counterexample :
    isErrO (set_shared_4k (some 0x5000) stL1hugeNP 0) = true
    ∧ isErrO (split_4k (some 0x5000) stL1hugeNP (walk_addr stL1hugeNP 0)) = false := by
  decide

end SVSM
